import Mathlib

/-!
# URL-Constructor: the worker-URL transformation and its derivation effect

The repository is one React component, `src/App.jsx`.  Its logic is

* `safeParseUrl`  (lines 47-55),
* `buildWorkerUrl` (lines 57-77),
* the `effectiveWorker` memo (lines 90-93),
* the derivation effect (lines 99-112).

These four are embedded below, line by line.  They are written against the
browser's `String.prototype.trim` and `URL` / `URLSearchParams` classes, which
are not code of the repository.  The part of those classes that the four
functions reach is embedded from the URL Standard (the parser without a base
URL, the `search` and `hash` setters for the empty string, `searchParams.get`
and `searchParams.set`, the serializer) and from the Encoding Standard (the
UTF-8 encoder and decoder).  The one piece that is taken as a parameter is the
Unicode IDNA `ToASCII` operation used by the host parser on the host of a
special URL; it appears everywhere as the argument `idna`.

A JavaScript string is modelled as a Lean string, that is, as a sequence of
Unicode scalar values.  Inside the URL machinery strings are lists of
characters (`Str`) and byte sequences are lists of naturals below 256.
-/

namespace UrlConstructor

/-! ## Characters, strings, bytes -/

/-- A string seen as the list of its scalar values. -/
abbrev Str := List Char

/-- ECMAScript `WhiteSpace` and `LineTerminator` code points, the ones that
`String.prototype.trim` removes. -/
def isJsWhitespace (c : Char) : Bool :=
  let n := c.toNat
  n == 0x09 || n == 0x0A || n == 0x0B || n == 0x0C || n == 0x0D || n == 0x20 ||
  n == 0xA0 || n == 0x1680 || (0x2000 ≤ n && n ≤ 0x200A) || n == 0x2028 ||
  n == 0x2029 || n == 0x202F || n == 0x205F || n == 0x3000 || n == 0xFEFF

/-- Remove the longest suffix whose elements satisfy `p`. -/
def dropTrailing (p : Char → Bool) (s : Str) : Str :=
  (s.reverse.dropWhile p).reverse

/-- `String.prototype.trim` on a list of code points. -/
def trimStr (s : Str) : Str :=
  dropTrailing isJsWhitespace (s.dropWhile isJsWhitespace)

/-- `String.prototype.trim`. -/
def jsTrim (s : String) : String := String.mk (trimStr s.toList)

def isAsciiDigit (c : Char) : Bool := 0x30 ≤ c.toNat && c.toNat ≤ 0x39

def isAsciiUpperAlpha (c : Char) : Bool := 0x41 ≤ c.toNat && c.toNat ≤ 0x5A

def isAsciiLowerAlpha (c : Char) : Bool := 0x61 ≤ c.toNat && c.toNat ≤ 0x7A

def isAsciiAlpha (c : Char) : Bool := isAsciiUpperAlpha c || isAsciiLowerAlpha c

def isAsciiAlphanumeric (c : Char) : Bool := isAsciiDigit c || isAsciiAlpha c

/-- ASCII lowercase of one code point. -/
def asciiLower (c : Char) : Char :=
  if isAsciiUpperAlpha c then Char.ofNat (c.toNat + 0x20) else c

/-- Value of an ASCII hex digit given by its code, `none` for any other code. -/
def hexValue (n : Nat) : Option Nat :=
  if 0x30 ≤ n && n ≤ 0x39 then some (n - 0x30)
  else if 0x41 ≤ n && n ≤ 0x46 then some (n - 0x37)
  else if 0x61 ≤ n && n ≤ 0x66 then some (n - 0x57)
  else none

/-- The upper-case hex digit of a value below 16. -/
def hexDigitUpper (n : Nat) : Char :=
  if n < 10 then Char.ofNat (0x30 + n) else Char.ofNat (0x37 + n)

/-- The lower-case hex digit of a value below 16. -/
def hexDigitLower (n : Nat) : Char :=
  if n < 10 then Char.ofNat (0x30 + n) else Char.ofNat (0x57 + n)

/-! ## UTF-8 (Encoding Standard) -/

/-- UTF-8 encoder for one scalar value. -/
def utf8EncodeChar (c : Char) : List Nat :=
  let n := c.toNat
  if n < 0x80 then [n]
  else if n < 0x800 then [0xC0 + n / 0x40, 0x80 + n % 0x40]
  else if n < 0x10000 then [0xE0 + n / 0x1000, 0x80 + n / 0x40 % 0x40, 0x80 + n % 0x40]
  else [0xF0 + n / 0x40000, 0x80 + n / 0x1000 % 0x40, 0x80 + n / 0x40 % 0x40, 0x80 + n % 0x40]

/-- UTF-8 encode a string. -/
def utf8Encode : Str → List Nat
  | [] => []
  | c :: cs => utf8EncodeChar c ++ utf8Encode cs

/-- State of the UTF-8 decoder between bytes: the code point being assembled,
the number of continuation bytes still expected, and the bounds that the next
continuation byte has to meet. -/
structure Utf8State where
  codePoint : Nat
  bytesLeft : Nat
  lower : Nat
  upper : Nat
deriving DecidableEq, Repr

/-- What the decoder does with a byte read when no sequence is open. -/
inductive Utf8Lead where
  | emit (c : Char)
  | open_ (st : Utf8State)
  | error
deriving DecidableEq, Repr

/-- The UTF-8 decoder on a byte read when `bytes needed` is 0. -/
def utf8Lead (b : Nat) : Utf8Lead :=
  if b ≤ 0x7F then .emit (Char.ofNat b)
  else if 0xC2 ≤ b && b ≤ 0xDF then .open_ ⟨b % 0x20, 1, 0x80, 0xBF⟩
  else if 0xE0 ≤ b && b ≤ 0xEF then
    .open_ ⟨b % 0x10, 2, if b == 0xE0 then 0xA0 else 0x80, if b == 0xED then 0x9F else 0xBF⟩
  else if 0xF0 ≤ b && b ≤ 0xF4 then
    .open_ ⟨b % 0x08, 3, if b == 0xF0 then 0x90 else 0x80, if b == 0xF4 then 0x8F else 0xBF⟩
  else .error

/-- The UTF-8 decoder with replacement (`UTF-8 decode without BOM`): `st` is
`none` when no sequence is open.  A byte that cannot continue the open
sequence yields U+FFFD and is then read again as a lead byte. -/
def utf8DecodeFrom : Option Utf8State → List Nat → Str
  | none, [] => []
  | some _, [] => [Char.ofNat 0xFFFD]
  | none, b :: bs =>
    match utf8Lead b with
    | .emit c => c :: utf8DecodeFrom none bs
    | .open_ st => utf8DecodeFrom (some st) bs
    | .error => Char.ofNat 0xFFFD :: utf8DecodeFrom none bs
  | some st, b :: bs =>
    if st.lower ≤ b && b ≤ st.upper then
      let cp := st.codePoint * 0x40 + b % 0x40
      if st.bytesLeft ≤ 1 then Char.ofNat cp :: utf8DecodeFrom none bs
      else utf8DecodeFrom (some ⟨cp, st.bytesLeft - 1, 0x80, 0xBF⟩) bs
    else
      Char.ofNat 0xFFFD ::
        (match utf8Lead b with
         | .emit c => c :: utf8DecodeFrom none bs
         | .open_ st2 => utf8DecodeFrom (some st2) bs
         | .error => Char.ofNat 0xFFFD :: utf8DecodeFrom none bs)

/-- `UTF-8 decode without BOM`. -/
def utf8Decode (bs : List Nat) : Str := utf8DecodeFrom none bs

/-! ## Percent-encoding (URL Standard, section 1.3) -/

def inC0ControlSet (n : Nat) : Bool := n ≤ 0x1F || 0x7E < n

def inFragmentSet (n : Nat) : Bool :=
  inC0ControlSet n || n == 0x20 || n == 0x22 || n == 0x3C || n == 0x3E || n == 0x60

def inQuerySet (n : Nat) : Bool :=
  inC0ControlSet n || n == 0x20 || n == 0x22 || n == 0x23 || n == 0x3C || n == 0x3E

def inSpecialQuerySet (n : Nat) : Bool := inQuerySet n || n == 0x27

def inPathSet (n : Nat) : Bool :=
  inQuerySet n || n == 0x3F || n == 0x5E || n == 0x60 || n == 0x7B || n == 0x7D

def inUserinfoSet (n : Nat) : Bool :=
  inPathSet n || n == 0x2F || n == 0x3A || n == 0x3B || n == 0x3D || n == 0x40 ||
  (0x5B ≤ n && n ≤ 0x5D) || n == 0x7C

def inComponentSet (n : Nat) : Bool :=
  inUserinfoSet n || (0x24 ≤ n && n ≤ 0x26) || n == 0x2B || n == 0x2C

/-- The application/x-www-form-urlencoded percent-encode set. -/
def inUrlencodedSet (n : Nat) : Bool :=
  inComponentSet n || n == 0x21 || (0x27 ≤ n && n ≤ 0x29) || n == 0x7E

/-- Percent-encode one byte: `%` and two upper-case hex digits. -/
def percentEncodeByte (b : Nat) : Str :=
  ['%', hexDigitUpper (b / 16), hexDigitUpper (b % 16)]

/-- The byte loop of `percent-encode after encoding`. -/
def encodeBytes (set : Nat → Bool) (spaceAsPlus : Bool) : List Nat → Str
  | [] => []
  | b :: bs =>
    (if spaceAsPlus && b == 0x20 then ['+']
     else if set b then percentEncodeByte b
     else [Char.ofNat b]) ++ encodeBytes set spaceAsPlus bs

/-- `percent-encode after encoding` with the UTF-8 encoding. -/
def percentEncodeAfterEncoding (set : Nat → Bool) (spaceAsPlus : Bool) (s : Str) : Str :=
  encodeBytes set spaceAsPlus (utf8Encode s)

/-- `UTF-8 percent-encode` one scalar value. -/
def utf8PercentEncode (set : Nat → Bool) (c : Char) : Str :=
  encodeBytes set false (utf8EncodeChar c)

/-- `UTF-8 percent-encode` every scalar value of a string. -/
def utf8PercentEncodeStr (set : Nat → Bool) : Str → Str
  | [] => []
  | c :: cs => utf8PercentEncode set c ++ utf8PercentEncodeStr set cs

/-- `percent-decode` a byte sequence. -/
def percentDecode : List Nat → List Nat
  | [] => []
  | [b] => [b]
  | [b, c] => [b, c]
  | b :: h :: l :: rest =>
    if b == 0x25 then
      match hexValue h, hexValue l with
      | some x, some y => (16 * x + y) :: percentDecode rest
      | _, _ => b :: percentDecode (h :: l :: rest)
    else b :: percentDecode (h :: l :: rest)

/-! ## application/x-www-form-urlencoded -/

/-- Strictly split a list on a delimiter. -/
def splitOn {α : Type} [DecidableEq α] (d : α) : List α → List (List α)
  | [] => [[]]
  | x :: xs =>
    if x = d then [] :: splitOn d xs
    else match splitOn d xs with
      | [] => [[x]]
      | p :: ps => (x :: p) :: ps

/-- Replace every `+` byte by a space byte. -/
def plusToSpace (bs : List Nat) : List Nat := bs.map fun b => if b == 0x2B then 0x20 else b

/-- One name-value pair of the form-urlencoded parser, from a non-empty
sequence between two ampersands. -/
def formParsePair (bytes : List Nat) : Str × Str :=
  let name := bytes.takeWhile (· != 0x3D)
  let value := (bytes.dropWhile (· != 0x3D)).drop 1
  (utf8Decode (percentDecode (plusToSpace name)), utf8Decode (percentDecode (plusToSpace value)))

/-- The application/x-www-form-urlencoded parser. -/
def formParseBytes (input : List Nat) : List (Str × Str) :=
  ((splitOn 0x26 input).filter (fun s => !s.isEmpty)).map formParsePair

/-- The application/x-www-form-urlencoded string parser. -/
def formParse (input : Str) : List (Str × Str) := formParseBytes (utf8Encode input)

/-- One name or value in the form-urlencoded serializer. -/
def formEncode (s : Str) : Str := percentEncodeAfterEncoding inUrlencodedSet true s

/-- The application/x-www-form-urlencoded serializer. -/
def formSerialize : List (Str × Str) → Str
  | [] => []
  | [(n, v)] => formEncode n ++ '=' :: formEncode v
  | (n, v) :: rest => formEncode n ++ '=' :: formEncode v ++ '&' :: formSerialize rest

/-! ## URL records and the URL serializer (URL Standard, sections 3 and 4) -/

/-- A host: a domain, an IPv4 address, an IPv6 address (eight 16-bit pieces),
an opaque host, or the empty host. -/
inductive Host where
  | domain (d : Str)
  | ipv4 (address : Nat)
  | ipv6 (pieces : List Nat)
  | opaqueHost (s : Str)
  | emptyHost
deriving DecidableEq, Repr

/-- A URL path: an opaque path (one string) or a list of path segments. -/
inductive UrlPath where
  | opaquePath (s : Str)
  | segments (l : List Str)
deriving DecidableEq, Repr

/-- A URL record. -/
structure Url where
  scheme : Str
  username : Str := []
  password : Str := []
  host : Option Host := none
  port : Option Nat := none
  path : UrlPath := .segments []
  query : Option Str := none
  fragment : Option Str := none
deriving DecidableEq, Repr

/-- The special schemes. -/
def isSpecialScheme (scheme : Str) : Bool :=
  scheme = "ftp".toList || scheme = "file".toList || scheme = "http".toList ||
  scheme = "https".toList || scheme = "ws".toList || scheme = "wss".toList

/-- The default port of a special scheme. -/
def defaultPort (scheme : Str) : Option Nat :=
  if scheme = "ftp".toList then some 21
  else if scheme = "http".toList then some 80
  else if scheme = "https".toList then some 443
  else if scheme = "ws".toList then some 80
  else if scheme = "wss".toList then some 443
  else none

/-- Digits of `n` in base `base`, most significant first, onto `acc`. -/
def digitsAux (base : Nat) (digit : Nat → Char) : Nat → Nat → Str → Str
  | 0, _, acc => acc
  | fuel + 1, n, acc =>
    if n / base = 0 then digit (n % base) :: acc
    else digitsAux base digit fuel (n / base) (digit (n % base) :: acc)

/-- Shortest decimal representation. -/
def decimal (n : Nat) : Str := digitsAux 10 hexDigitLower (n + 1) n []

/-- Shortest lower-case hexadecimal representation. -/
def hexLower (n : Nat) : Str := digitsAux 16 hexDigitLower (n + 1) n []

/-- The IPv4 serializer. -/
def serializeIpv4 (address : Nat) : Str :=
  decimal (address / 0x1000000 % 0x100) ++ '.' ::
  decimal (address / 0x10000 % 0x100) ++ '.' ::
  decimal (address / 0x100 % 0x100) ++ '.' ::
  decimal (address % 0x100)

/-- The loop of `find the IPv6 address compressed piece index`: `longest` and
`found` are (index, size) pairs, absent while no run is known. -/
def findCompressedLoop : List Nat → Nat → Option Nat → Nat → Option Nat → Nat → Option Nat
  | [], _, longestIndex, longestSize, foundIndex, foundSize =>
    if foundSize > longestSize then foundIndex else longestIndex
  | piece :: rest, pieceIndex, longestIndex, longestSize, foundIndex, foundSize =>
    if piece ≠ 0 then
      if foundSize > longestSize then
        findCompressedLoop rest (pieceIndex + 1) foundIndex foundSize none 0
      else findCompressedLoop rest (pieceIndex + 1) longestIndex longestSize none 0
    else
      findCompressedLoop rest (pieceIndex + 1) longestIndex longestSize
        (if foundIndex.isNone then some pieceIndex else foundIndex) (foundSize + 1)

/-- The index of the first longest run of two or more zero pieces. -/
def findCompressedPieceIndex (pieces : List Nat) : Option Nat :=
  findCompressedLoop pieces 0 none 1 none 0

/-- The piece loop of the IPv6 serializer; `total` is the number of pieces. -/
def serializeIpv6Loop (compress : Option Nat) : List Nat → Nat → Bool → Str
  | [], _, _ => []
  | piece :: rest, pieceIndex, ignore0 =>
    if ignore0 && piece == 0 then serializeIpv6Loop compress rest (pieceIndex + 1) true
    else if compress = some pieceIndex then
      (if pieceIndex = 0 then "::".toList else ":".toList) ++
        serializeIpv6Loop compress rest (pieceIndex + 1) true
    else
      hexLower piece ++ (if pieceIndex ≠ 7 then [':'] else []) ++
        serializeIpv6Loop compress rest (pieceIndex + 1) false

/-- The IPv6 serializer. -/
def serializeIpv6 (pieces : List Nat) : Str :=
  serializeIpv6Loop (findCompressedPieceIndex pieces) pieces 0 false

/-- The host serializer. -/
def serializeHost : Host → Str
  | .domain d => d
  | .ipv4 a => serializeIpv4 a
  | .ipv6 p => '[' :: serializeIpv6 p ++ [']']
  | .opaqueHost s => s
  | .emptyHost => []

/-- Each segment preceded by a slash. -/
def serializeSegments : List Str → Str
  | [] => []
  | seg :: rest => '/' :: seg ++ serializeSegments rest

/-- The URL path serializer. -/
def serializePath : UrlPath → Str
  | .opaquePath s => s
  | .segments l => serializeSegments l

/-- The credentials in a serialized URL: nothing when both are empty,
otherwise the username, the password after a colon when it is not empty,
and `@`. -/
def serializeCredentials (username password : Str) : Str :=
  if username ≠ [] ∨ password ≠ [] then
    username ++ (if password ≠ [] then ':' :: password else []) ++ ['@']
  else []

/-- The port in a serialized URL. -/
def serializePort : Option Nat → Str
  | some p => ':' :: decimal p
  | none => []

/-- The URL serializer up to and including the path: scheme, credentials,
host, port and path. -/
def serializeUpToPath (url : Url) : Str :=
  url.scheme ++ ':' ::
  ((match url.host with
    | some h =>
      "//".toList ++ serializeCredentials url.username url.password ++ serializeHost h ++
        serializePort url.port
    | none =>
      match url.path with
      | .segments (first :: _ :: _) => if first = [] then "/.".toList else []
      | _ => []) ++
   serializePath url.path)

/-- The URL serializer (fragment included). -/
def serializeUrl (url : Url) : Str :=
  serializeUpToPath url ++
  (match url.query with
   | some q => '?' :: q
   | none => []) ++
  (match url.fragment with
   | some f => '#' :: f
   | none => [])

/-! ## Host parsing (URL Standard, section 3.5) -/

def isForbiddenHostCodePoint (c : Char) : Bool :=
  let n := c.toNat
  n == 0x00 || n == 0x09 || n == 0x0A || n == 0x0D || n == 0x20 || n == 0x23 || n == 0x2F ||
  n == 0x3A || n == 0x3C || n == 0x3E || n == 0x3F || n == 0x40 || n == 0x5B || n == 0x5C ||
  n == 0x5D || n == 0x5E || n == 0x7C

def isForbiddenDomainCodePoint (c : Char) : Bool :=
  isForbiddenHostCodePoint c || c.toNat ≤ 0x1F || c.toNat == 0x25 || c.toNat == 0x7F

/-- Value of a digit string in radix `r`, `none` when a code point is not a
radix-`r` digit. -/
def radixValue (r : Nat) : Nat → Str → Option Nat
  | acc, [] => some acc
  | acc, c :: cs =>
    match hexValue c.toNat with
    | some d => if d < r then radixValue r (acc * r + d) cs else none
    | none => none

/-- The IPv4 number parser (the validation-error flag is not kept). -/
def ipv4NumberParse (input : Str) : Option Nat :=
  match input with
  | [] => none
  | [c] => radixValue 10 0 [c]
  | c :: d :: rest =>
    if c = '0' && (d = 'x' || d = 'X') then radixValue 16 0 rest
    else if c = '0' then radixValue 8 0 (d :: rest)
    else radixValue 10 0 (c :: d :: rest)

/-- The parts of a dotted host with one trailing empty part removed, `none`
when that leaves nothing. -/
def dottedParts (input : Str) : Option (List Str) :=
  let parts := splitOn '.' input
  if parts.getLast? = some [] then
    if parts.length = 1 then none else some parts.dropLast
  else some parts

/-- The ends-in-a-number checker. -/
def endsInNumber (input : Str) : Bool :=
  match dottedParts input with
  | none => false
  | some parts =>
    match parts.getLast? with
    | none => false
    | some last => (!last.isEmpty && last.all isAsciiDigit) || (ipv4NumberParse last).isSome

/-- Apply a partial function to every element, failing when one fails. -/
def allSome {α β : Type} (f : α → Option β) : List α → Option (List β)
  | [] => some []
  | x :: xs =>
    match f x, allSome f xs with
    | some y, some ys => some (y :: ys)
    | _, _ => none

/-- The weighted sum of the leading numbers of an IPv4 address. -/
def ipv4Sum : List Nat → Nat → Nat
  | [], _ => 0
  | n :: ns, counter => n * 256 ^ (3 - counter) + ipv4Sum ns (counter + 1)

/-- The IPv4 parser. -/
def ipv4Parse (input : Str) : Option Nat :=
  let parts := splitOn '.' input
  let parts := if parts.getLast? = some [] ∧ parts.length > 1 then parts.dropLast else parts
  if parts.length > 4 then none
  else
    match allSome ipv4NumberParse parts with
    | none => none
    | some numbers =>
      match numbers.getLast? with
      | none => none
      | some last =>
        if numbers.dropLast.any (fun n => n > 255) then none
        else if last ≥ 256 ^ (5 - numbers.length) then none
        else some (last + ipv4Sum numbers.dropLast 0)

/-- The digits of one number of an IPv4 tail in an IPv6 address; `none` is
failure (a leading zero or a value above 255). -/
def readIpv4Piece : Option Nat → Str → Option (Option Nat × Str)
  | piece, [] => some (piece, [])
  | piece, c :: rest =>
    if isAsciiDigit c then
      let number := c.toNat - 0x30
      match piece with
      | none => readIpv4Piece (some number) rest
      | some p =>
        if p = 0 then none
        else if p * 10 + number > 255 then none
        else readIpv4Piece (some (p * 10 + number)) rest
    else some (piece, c :: rest)

/-- The loop over the dotted-decimal tail of an IPv6 address. -/
def ipv4InIpv6 : Nat → List Nat → Nat → Nat → Str → Option (List Nat × Nat)
  | _, address, pieceIndex, numbersSeen, [] =>
    if numbersSeen = 4 then some (address, pieceIndex) else none
  | 0, _, _, _, _ :: _ => none
  | fuel + 1, address, pieceIndex, numbersSeen, c :: rest =>
    let afterDot : Option Str :=
      if numbersSeen > 0 then
        if c = '.' && numbersSeen < 4 then some rest else none
      else some (c :: rest)
    match afterDot with
    | none => none
    | some input =>
      match readIpv4Piece none input with
      | some (some piece, rest2) =>
        let address := address.set pieceIndex (address.getD pieceIndex 0 * 0x100 + piece)
        let numbersSeen := numbersSeen + 1
        let pieceIndex := if numbersSeen = 2 || numbersSeen = 4 then pieceIndex + 1 else pieceIndex
        ipv4InIpv6 fuel address pieceIndex numbersSeen rest2
      | _ => none

/-- The main loop of the IPv6 parser, one code point at a time.  `piece` is
`none` at the head of the loop and `some (value, length, start)` inside a
piece, after `length` hex digits of value `value`; `start` is the input at
the beginning of the piece, where the dotted-decimal tail is read from. -/
def ipv6Loop : List Nat → Nat → Option Nat → Option (Nat × Nat × Str) → Str →
    Option (List Nat × Nat × Option Nat)
  | address, pieceIndex, compress, none, [] => some (address, pieceIndex, compress)
  | address, pieceIndex, compress, some (value, _, _), [] =>
    some (address.set pieceIndex value, pieceIndex + 1, compress)
  | address, pieceIndex, compress, piece, c :: rest =>
    if piece.isNone && pieceIndex = 8 then none
    else if piece.isNone && c = ':' then
      if compress.isSome then none
      else ipv6Loop address (pieceIndex + 1) (some (pieceIndex + 1)) none rest
    else
      let value := (piece.getD (0, 0, c :: rest)).1
      let length := (piece.getD (0, 0, c :: rest)).2.1
      let start := (piece.getD (0, 0, c :: rest)).2.2
      match hexValue c.toNat with
      | some d =>
        if length < 4 then
          ipv6Loop address pieceIndex compress (some (value * 0x10 + d, length + 1, start)) rest
        else none
      | none =>
        if c = '.' then
          if length = 0 then none
          else if pieceIndex > 6 then none
          else
            match ipv4InIpv6 start.length address pieceIndex 0 start with
            | some (address, pieceIndex) => some (address, pieceIndex, compress)
            | none => none
        else if c = ':' then
          if rest.isEmpty then none
          else ipv6Loop (address.set pieceIndex value) (pieceIndex + 1) compress none rest
        else none

/-- Exchange two entries of a list. -/
def swapAt (l : List Nat) (i j : Nat) : List Nat :=
  (l.set i (l.getD j 0)).set j (l.getD i 0)

/-- The final swap loop of the IPv6 parser. -/
def ipv6Swap (compress : Nat) : Nat → Nat → List Nat → List Nat
  | 0, _, address => address
  | swaps + 1, pieceIndex, address =>
    if pieceIndex = 0 then address
    else ipv6Swap compress swaps (pieceIndex - 1) (swapAt address pieceIndex (compress + swaps))

/-- The end of the IPv6 parser: the pieces after the compression move to
the end of the address. -/
def ipv6Finish : Option (List Nat × Nat × Option Nat) → Option (List Nat)
  | none => none
  | some (address, pieceIndex, some compress) =>
    some (ipv6Swap compress (pieceIndex - compress) 7 address)
  | some (address, pieceIndex, none) => if pieceIndex ≠ 8 then none else some address

/-- The IPv6 parser. -/
def ipv6Parse (input : Str) : Option (List Nat) :=
  if input.head? = some ':' then
    if (input.drop 1).head? = some ':' then
      ipv6Finish (ipv6Loop (List.replicate 8 0) 1 (some 1) none (input.drop 2))
    else none
  else ipv6Finish (ipv6Loop (List.replicate 8 0) 0 none none input)

/-- The opaque-host parser. -/
def opaqueHostParse (input : Str) : Option Host :=
  if input.any isForbiddenHostCodePoint then none
  else
    match utf8PercentEncodeStr inC0ControlSet input with
    | [] => some .emptyHost
    | s => some (.opaqueHost s)

/-- `domain to ASCII` with `beStrict` false: the Unicode `ToASCII` operation
`idna`, and failure when its result is the empty string. -/
def domainToASCII (idna : Str → Option Str) (domain : Str) : Option Str :=
  match idna domain with
  | none => none
  | some result => if result.isEmpty then none else some result

/-- The host parser. -/
def hostParse (idna : Str → Option Str) (input : Str) (isOpaqueHost : Bool) : Option Host :=
  if input.head? = some '[' then
    if input.getLast? = some ']' then (ipv6Parse (input.drop 1).dropLast).map .ipv6 else none
  else if isOpaqueHost then opaqueHostParse input
  else
    match domainToASCII idna (utf8Decode (percentDecode (utf8Encode input))) with
    | none => none
    | some asciiDomain =>
      if asciiDomain.any isForbiddenDomainCodePoint then none
      else if endsInNumber asciiDomain then (ipv4Parse asciiDomain).map .ipv4
      else some (.domain asciiDomain)

/-! ## The basic URL parser without a base URL (URL Standard, section 4.4)

Every state of the state machine is a function of the input that is left.
A state that moves the pointer back hands the same input to the next state.
With no base URL the `no scheme`, `relative` and `special relative or
authority` states are not reached except to fail. -/

/-- The backslash. -/
def backslash : Char := Char.ofNat 0x5C

def isC0ControlOrSpace (c : Char) : Bool := c.toNat ≤ 0x20

def isAsciiTabOrNewline (c : Char) : Bool := c.toNat == 0x09 || c.toNat == 0x0A || c.toNat == 0x0D

/-- Steps 1 and 3 of the basic URL parser: strip leading and trailing C0
control or space, then remove every ASCII tab or newline. -/
def preprocess (input : Str) : Str :=
  (dropTrailing isC0ControlOrSpace (input.dropWhile isC0ControlOrSpace)).filter
    (fun c => !isAsciiTabOrNewline c)

/-- Fragment state, entered with the fragment set to the empty string. -/
def fragmentState (url : Url) (input : Str) : Url :=
  { url with fragment := some (utf8PercentEncodeStr inFragmentSet input) }

/-- Query state, entered with the query set to the empty string: the buffer
runs to the first `#` or to the end. -/
def queryState (url : Url) (input : Str) : Url :=
  let buffer := input.takeWhile (fun c => c != '#')
  let set := if isSpecialScheme url.scheme then inSpecialQuerySet else inQuerySet
  let url := { url with query := some (percentEncodeAfterEncoding set false buffer) }
  match input.dropWhile (fun c => c != '#') with
  | [] => url
  | _ :: rest => fragmentState url rest

/-- A single-dot URL path segment. -/
def isSingleDot (buffer : Str) : Bool :=
  let b := buffer.map asciiLower
  b = ".".toList || b = "%2e".toList

/-- A double-dot URL path segment. -/
def isDoubleDot (buffer : Str) : Bool :=
  let b := buffer.map asciiLower
  b = "..".toList || b = ".%2e".toList || b = "%2e.".toList || b = "%2e%2e".toList

def isWindowsDriveLetter (s : Str) : Bool :=
  match s with
  | [a, b] => isAsciiAlpha a && (b = ':' || b = '|')
  | _ => false

def isNormalizedWindowsDriveLetter (s : Str) : Bool :=
  match s with
  | [a, b] => isAsciiAlpha a && b = ':'
  | _ => false

/-- Shorten a path. -/
def shortenPath (scheme : Str) (path : List Str) : List Str :=
  match path with
  | [p] => if scheme = "file".toList && isNormalizedWindowsDriveLetter p then path else []
  | _ => path.dropLast

/-- Path state, steps 1.2 to 1.4: what the end of a segment does to the path.
`slash` tells whether the segment was ended by a slash (or, in a special URL,
a backslash). -/
def endSegment (scheme : Str) (path : List Str) (buffer : Str) (slash : Bool) : List Str :=
  if isDoubleDot buffer then
    if slash then shortenPath scheme path else shortenPath scheme path ++ [[]]
  else if isSingleDot buffer then
    if slash then path else path ++ [[]]
  else if scheme = "file".toList && path.isEmpty && isWindowsDriveLetter buffer then
    path ++ [buffer.take 1 ++ [':']]
  else path ++ [buffer]

/-- Path state. -/
def pathState (url : Url) : List Str → Str → Str → Url
  | path, buffer, [] => { url with path := .segments (endSegment url.scheme path buffer false) }
  | path, buffer, c :: rest =>
    if c = '/' || (isSpecialScheme url.scheme && c = backslash) then
      pathState url (endSegment url.scheme path buffer true) [] rest
    else if c = '?' then
      queryState { url with path := .segments (endSegment url.scheme path buffer false) } rest
    else if c = '#' then
      fragmentState { url with path := .segments (endSegment url.scheme path buffer false) } rest
    else pathState url path (buffer ++ utf8PercentEncode inPathSet c) rest

/-- Path start state. -/
def pathStartState (url : Url) (input : Str) : Url :=
  match input with
  | [] => if isSpecialScheme url.scheme then pathState url [] [] [] else url
  | c :: rest =>
    if isSpecialScheme url.scheme then
      if c = '/' || c = backslash then pathState url [] [] rest else pathState url [] [] input
    else if c = '?' then queryState url rest
    else if c = '#' then fragmentState url rest
    else if c = '/' then pathState url [] [] rest
    else pathState url [] [] input

/-- Opaque path state. -/
def opaquePathState (url : Url) : Str → Str → Url
  | path, [] => { url with path := .opaquePath path }
  | path, c :: rest =>
    if c = '?' then queryState { url with path := .opaquePath path } rest
    else if c = '#' then fragmentState { url with path := .opaquePath path } rest
    else if c = ' ' then
      if rest.head? = some '?' || rest.head? = some '#' then
        opaquePathState url (path ++ "%20".toList) rest
      else opaquePathState url (path ++ [' ']) rest
    else opaquePathState url (path ++ utf8PercentEncode inC0ControlSet c) rest

/-- The code point that ends an authority, a host or a port: the end of the
input, `/`, `?`, `#`, and in a special URL the backslash. -/
def endsAuthority (special : Bool) (input : Str) : Bool :=
  match input with
  | [] => true
  | c :: _ => c = '/' || c = '?' || c = '#' || (special && c = backslash)

/-- Port state. -/
def portState (url : Url) (input : Str) : Option Url :=
  let buffer := input.takeWhile isAsciiDigit
  let rest := input.dropWhile isAsciiDigit
  if endsAuthority (isSpecialScheme url.scheme) rest then
    if buffer.isEmpty then some (pathStartState url rest)
    else
      match radixValue 10 0 buffer with
      | none => none
      | some port =>
        if port > 65535 then none
        else
          some (pathStartState
            { url with port := if defaultPort url.scheme = some port then none else some port } rest)
  else none

/-- Host state. -/
def hostState (idna : Str → Option Str) (url : Url) : Bool → Str → Str → Option Url
  | _, buffer, [] =>
    if isSpecialScheme url.scheme && buffer.isEmpty then none
    else
      match hostParse idna buffer (!isSpecialScheme url.scheme) with
      | none => none
      | some host => some (pathStartState { url with host := some host } [])
  | insideBrackets, buffer, c :: rest =>
    if c = ':' && !insideBrackets then
      if buffer.isEmpty then none
      else
        match hostParse idna buffer (!isSpecialScheme url.scheme) with
        | none => none
        | some host => portState { url with host := some host } rest
    else if endsAuthority (isSpecialScheme url.scheme) (c :: rest) then
      if isSpecialScheme url.scheme && buffer.isEmpty then none
      else
        match hostParse idna buffer (!isSpecialScheme url.scheme) with
        | none => none
        | some host => some (pathStartState { url with host := some host } (c :: rest))
    else
      hostState idna url (if c = '[' then true else if c = ']' then false else insideBrackets)
        (buffer ++ [c]) rest

/-- Authority state, step 1.4: the buffer before an `@` goes to the username
and, after its first colon, to the password. -/
def addCredentials (url : Url) : Bool → Str → Url × Bool
  | passwordTokenSeen, [] => (url, passwordTokenSeen)
  | passwordTokenSeen, c :: rest =>
    if c = ':' && !passwordTokenSeen then addCredentials url true rest
    else if passwordTokenSeen then
      addCredentials { url with password := url.password ++ utf8PercentEncode inUserinfoSet c }
        true rest
    else
      addCredentials { url with username := url.username ++ utf8PercentEncode inUserinfoSet c }
        false rest

/-- Authority state.  `start` is the input at the point where the buffer
began, which is where the host state resumes. -/
def authorityState (idna : Str → Option Str) :
    Url → Bool → Bool → Str → Str → Str → Option Url
  | url, atSignSeen, _, buffer, start, [] =>
    if atSignSeen && buffer.isEmpty then none else hostState idna url false [] start
  | url, atSignSeen, passwordTokenSeen, buffer, start, c :: rest =>
    if c = '@' then
      let buffer := if atSignSeen then "%40".toList ++ buffer else buffer
      let (url, passwordTokenSeen) := addCredentials url passwordTokenSeen buffer
      authorityState idna url true passwordTokenSeen [] rest rest
    else if endsAuthority (isSpecialScheme url.scheme) (c :: rest) then
      if atSignSeen && buffer.isEmpty then none else hostState idna url false [] start
    else authorityState idna url atSignSeen passwordTokenSeen (buffer ++ [c]) start rest

/-- Special authority ignore slashes state. -/
def specialAuthorityIgnoreSlashesState (idna : Str → Option Str) (url : Url) : Str → Option Url
  | [] => authorityState idna url false false [] [] []
  | c :: rest =>
    if c = '/' || c = backslash then specialAuthorityIgnoreSlashesState idna url rest
    else authorityState idna url false false [] (c :: rest) (c :: rest)

/-- Special authority slashes state. -/
def specialAuthoritySlashesState (idna : Str → Option Str) (url : Url) (input : Str) :
    Option Url :=
  match input with
  | c :: d :: rest =>
    if c = '/' && d = '/' then specialAuthorityIgnoreSlashesState idna url rest
    else specialAuthorityIgnoreSlashesState idna url input
  | _ => specialAuthorityIgnoreSlashesState idna url input

/-- Path or authority state. -/
def pathOrAuthorityState (idna : Str → Option Str) (url : Url) (input : Str) : Option Url :=
  match input with
  | c :: rest =>
    if c = '/' then authorityState idna url false false [] rest rest
    else some (pathState url [] [] input)
  | [] => some (pathState url [] [] input)

/-- File host state, step 1: the buffer is complete. -/
def fileHostEnd (idna : Str → Option Str) (url : Url) (buffer : Str) (input : Str) :
    Option Url :=
  if isWindowsDriveLetter buffer then some (pathState url [] buffer input)
  else if buffer.isEmpty then some (pathStartState { url with host := some .emptyHost } input)
  else
    match hostParse idna buffer false with
    | none => none
    | some host =>
      some (pathStartState
        { url with host := some (if host = .domain "localhost".toList then .emptyHost else host) }
        input)

/-- File host state. -/
def fileHostState (idna : Str → Option Str) (url : Url) : Str → Str → Option Url
  | buffer, [] => fileHostEnd idna url buffer []
  | buffer, c :: rest =>
    if c = '/' || c = backslash || c = '?' || c = '#' then fileHostEnd idna url buffer (c :: rest)
    else fileHostState idna url (buffer ++ [c]) rest

/-- File slash state. -/
def fileSlashState (idna : Str → Option Str) (url : Url) (input : Str) : Option Url :=
  match input with
  | c :: rest =>
    if c = '/' || c = backslash then fileHostState idna url [] rest
    else some (pathState url [] [] input)
  | [] => some (pathState url [] [] input)

/-- File state. -/
def fileState (idna : Str → Option Str) (url : Url) (input : Str) : Option Url :=
  let url := { url with scheme := "file".toList, host := some .emptyHost }
  match input with
  | c :: rest =>
    if c = '/' || c = backslash then fileSlashState idna url rest
    else some (pathState url [] [] input)
  | [] => some (pathState url [] [] input)

/-- Scheme state, step 2: the scheme is complete and the colon is read. -/
def afterScheme (idna : Str → Option Str) (scheme : Str) (rest : Str) : Option Url :=
  let url : Url := { scheme := scheme }
  if scheme = "file".toList then fileState idna url rest
  else if isSpecialScheme scheme then specialAuthoritySlashesState idna url rest
  else if rest.head? = some '/' then pathOrAuthorityState idna url (rest.drop 1)
  else some (opaquePathState { url with path := .opaquePath [] } [] rest)

/-- Scheme state.  Anything but a scheme code point or the colon leads to the
no scheme state, which fails for want of a base URL. -/
def schemeState (idna : Str → Option Str) : Str → Str → Option Url
  | _, [] => none
  | buffer, c :: rest =>
    if isAsciiAlphanumeric c || c = '+' || c = '-' || c = '.' then
      schemeState idna (buffer ++ [asciiLower c]) rest
    else if c = ':' then afterScheme idna buffer rest
    else none

/-- Scheme start state. -/
def schemeStartState (idna : Str → Option Str) (input : Str) : Option Url :=
  match input with
  | c :: rest => if isAsciiAlpha c then schemeState idna [asciiLower c] rest else none
  | [] => none

/-- The basic URL parser on a string, with no base URL; `none` is failure. -/
def basicUrlParse (idna : Str → Option Str) (input : Str) : Option Url :=
  schemeStartState idna (preprocess input)

/-! ## The `URL` and `URLSearchParams` classes (URL Standard, sections 5 and 6) -/

/-- A `URL` object: its URL record and the list of its query object
(`searchParams`). -/
structure UrlObject where
  url : Url
  list : List (Str × Str)
deriving DecidableEq, Repr

/-- The constructor `new URL(url)` without a base: `none` stands for the
`TypeError` it throws when the parser fails.  The query object is
initialised by parsing the query (the empty string when there is none). -/
def newURL (idna : Str → Option Str) (input : Str) : Option UrlObject :=
  match basicUrlParse idna input with
  | none => none
  | some url => some { url := url, list := formParse (url.query.getD []) }

/-- The method `searchParams.get(name)`: the value of the first pair whose
name is `name`, `none` (null) when there is none. -/
def searchParamsGet (o : UrlObject) (name : Str) : Option Str :=
  match o.list.find? (fun p => p.1 = name) with
  | some p => some p.2
  | none => none

/-- The `search` setter, given the empty string: the query becomes null and
the list of the query object is emptied. -/
def searchSetEmpty (o : UrlObject) : UrlObject :=
  { url := { o.url with query := none }, list := [] }

/-- The `hash` setter, given the empty string: the fragment becomes null. -/
def hashSetEmpty (o : UrlObject) : UrlObject :=
  { o with url := { o.url with fragment := none } }

/-- The list part of `searchParams.set(name, value)`: the first pair named
`name` takes the value and the others are removed; without one the pair is
appended. -/
def setPair (name value : Str) : List (Str × Str) → List (Str × Str)
  | [] => [(name, value)]
  | p :: rest =>
    if p.1 = name then (name, value) :: rest.filter (fun q => q.1 ≠ name)
    else p :: setPair name value rest

/-- The update steps of a query object: the URL's query becomes the
serialization of the list, null when that is the empty string. -/
def updateQuery (o : UrlObject) : UrlObject :=
  let serializedQuery := formSerialize o.list
  { o with url := { o.url with query := if serializedQuery.isEmpty then none else some serializedQuery } }

/-- The method `searchParams.set(name, value)`. -/
def searchParamsSet (o : UrlObject) (name value : Str) : UrlObject :=
  updateQuery { o with list := setPair name value o.list }

/-- The `href` getter, which `toString()` returns. -/
def href (o : UrlObject) : String := String.mk (serializeUrl o.url)

/-! ## The source: `src/App.jsx` -/

/-- The value `buildWorkerUrl` returns, `{ url, error }`. -/
structure BuildResult where
  url : String
  error : String
deriving DecidableEq, Repr

/-- `safeParseUrl` (lines 47-55): trim, give null for the empty string,
otherwise construct a `URL`; a `TypeError` is caught and gives null. -/
def safeParseUrl (idna : Str → Option Str) (raw : String) : Option UrlObject :=
  let trimmed := jsTrim raw
  if trimmed = "" then none
  else newURL idna trimmed.toList

/-- The message of the only error. -/
def invalidUrlMessage : String := "Invalid URL. Please paste a valid api.php link."

/-- `buildWorkerUrl` (lines 57-77). -/
def buildWorkerUrl (idna : Str → Option Str) (rawApiUrl workerType : String) : BuildResult :=
  match safeParseUrl idna rawApiUrl with
  | none => { url := "", error := invalidUrlMessage }
  | some parsed =>
    let account := searchParamsGet parsed "account".toList
    let parsed := searchSetEmpty parsed
    let parsed := hashSetEmpty parsed
    let parsed :=
      match account with
      | some a => if a.isEmpty then parsed else searchParamsSet parsed "account".toList a
      | none => parsed
    let parsed := searchParamsSet parsed "requestType".toList "worker".toList
    let parsed := searchParamsSet parsed "type".toList workerType.toList
    { url := href parsed, error := "" }

/-- The `effectiveWorker` memo (lines 90-93). -/
def effectiveWorker (selectedWorker customWorker : String) : String :=
  if selectedWorker = "custom" then jsTrim customWorker else selectedWorker

/-- The two pieces of component state that the derivation effect writes. -/
structure ViewState where
  outputUrl : String
  error : String
deriving DecidableEq, Repr

/-- The derivation effect (lines 99-112) as a step on the state. -/
def deriveStep (idna : Str → Option Str) (apiUrl worker : String) (s : ViewState) : ViewState :=
  if jsTrim apiUrl = "" then { outputUrl := "", error := "" }
  else if worker = "" then { s with outputUrl := "" }
  else
    let res := buildWorkerUrl idna apiUrl worker
    { outputUrl := res.url, error := res.error }

/-- The Unicode `ToASCII` operation on the domains that are ASCII and have no
label beginning with `xn--`: there it lower-cases.  It is undefined (`none`)
on every other domain; it serves the closed examples only. -/
def asciiToASCII (domain : Str) : Option Str :=
  if domain.all (fun c => c.toNat < 0x80) &&
      (splitOn '.' domain).all (fun l => (l.take 4).map asciiLower != "xn--".toList) then
    some (domain.map asciiLower)
  else none

/-! ## Definitions used to state the theorems -/

/-- The code points that the form-urlencoded serializer writes as they are:
ASCII letters and digits, `*`, `-`, `.` and `_`. -/
def isUnreserved (c : Char) : Bool :=
  isAsciiAlphanumeric c || c = '*' || c = '-' || c = '.' || c = '_'

/-- The query that `buildWorkerUrl` writes, from the account value read off
the source (null, empty, or a non-empty value) and the worker type. -/
def workerQuery (account : Option Str) (workerType : Str) : Str :=
  (match account with
   | some a => if a.isEmpty then [] else "account=".toList ++ formEncode a ++ ['&']
   | none => []) ++
  "requestType=worker&type=".toList ++ formEncode workerType

/-- The URL record that `buildWorkerUrl` serializes. -/
def workerRecord (url : Url) (account : Option Str) (workerType : Str) : Url :=
  { url with query := some (workerQuery account workerType), fragment := none }

/-- The source URL that the component starts with (line 83). -/
def exampleSource : String :=
  "https://api.eu-west-1.rentmanapp.com/4.806/api.php?account=staging133393&requestType=query&subject=Uren"

/-- The `URL` object of `exampleSource`. -/
def exampleObject : UrlObject :=
  { url :=
      { scheme := "https".toList
        host := some (.domain "api.eu-west-1.rentmanapp.com".toList)
        path := .segments ["4.806".toList, "api.php".toList]
        query := some "account=staging133393&requestType=query&subject=Uren".toList }
    list :=
      [("account".toList, "staging133393".toList), ("requestType".toList, "query".toList),
       ("subject".toList, "Uren".toList)] }

/-! ## What a parsed URL record looks like

The conditions below hold of every record that the parser returns; they are
what makes the serialization of a record parse to the same record. -/

/-- A code point of a path segment. -/
def isSegmentChar (special : Bool) (c : Char) : Bool :=
  !inPathSet c.toNat && c != '/' && !(special && c = backslash)

/-- A path segment: no code point of the path percent-encode set, no slash,
in a special URL no backslash, and not a dot segment. -/
def segmentOk (special : Bool) (seg : Str) : Bool :=
  seg.all (isSegmentChar special) && !isSingleDot seg && !isDoubleDot seg

theorem char_ofNat_toNat (c : Char) : Char.ofNat c.toNat = c := by
  simp [Char.ofNat_toNat]

theorem formEncode_cons_unreserved (c : Char) (s : Str) (h : isUnreserved c = true) :
    formEncode (c :: s) = c :: formEncode s := by
  have hc : isUnreserved c = true := h
  simp only [isUnreserved, isAsciiAlphanumeric, isAsciiDigit, isAsciiAlpha, isAsciiUpperAlpha,
    isAsciiLowerAlpha, Bool.or_eq_true, Bool.and_eq_true, decide_eq_true_eq] at hc
  have hn : c.toNat < 0x80 ∧ inUrlencodedSet c.toNat = false ∧ c.toNat ≠ 0x20 := by
    have e1 : c = '*' → c.toNat = 0x2A := fun e => by rw [e]; rfl
    have e2 : c = '-' → c.toNat = 0x2D := fun e => by rw [e]; rfl
    have e3 : c = '.' → c.toNat = 0x2E := fun e => by rw [e]; rfl
    have e4 : c = '_' → c.toNat = 0x5F := fun e => by rw [e]; rfl
    simp only [inUrlencodedSet, inComponentSet, inUserinfoSet, inPathSet, inQuerySet,
      inC0ControlSet, Bool.or_eq_false_iff, Bool.and_eq_false_iff, decide_eq_false_iff_not,
      beq_eq_false_iff_ne, ne_eq]
    rcases hc with (((hc | hc) | hc) | hc) | hc
    · omega
    · have := e1 hc; omega
    · have := e2 hc; omega
    · have := e3 hc; omega
    · have := e4 hc; omega
  obtain ⟨h1, h2, h3⟩ := hn
  simp [formEncode, percentEncodeAfterEncoding, utf8Encode, utf8EncodeChar, h1, encodeBytes, h2, h3,
    char_ofNat_toNat]

/-- The serializer leaves a string of unreserved code points as it is. -/
theorem formEncode_unreserved (s : Str) (h : ∀ c ∈ s, isUnreserved c = true) :
    formEncode s = s := by
  induction s with
  | nil => rfl
  | cons c s ih =>
    rw [formEncode_cons_unreserved c s (h c (List.mem_cons_self _ _)),
      ih (fun d hd => h d (List.mem_cons_of_mem _ hd))]

/-! ## The value of `buildWorkerUrl` -/

theorem serializeUrl_query (url : Url) (q : Str) :
    serializeUrl { url with query := some q, fragment := none } =
      serializeUpToPath url ++ '?' :: q := by
  simp [serializeUrl, serializeUpToPath]

theorem formEncode_account :
    formEncode ['a', 'c', 'c', 'o', 'u', 'n', 't'] = ['a', 'c', 'c', 'o', 'u', 'n', 't'] := by decide

theorem formEncode_requestType :
    formEncode ['r', 'e', 'q', 'u', 'e', 's', 't', 'T', 'y', 'p', 'e'] =
      ['r', 'e', 'q', 'u', 'e', 's', 't', 'T', 'y', 'p', 'e'] := by decide

theorem formEncode_worker :
    formEncode ['w', 'o', 'r', 'k', 'e', 'r'] = ['w', 'o', 'r', 'k', 'e', 'r'] := by decide

theorem formEncode_type : formEncode ['t', 'y', 'p', 'e'] = ['t', 'y', 'p', 'e'] := by decide

theorem serializeUrl_workerRecord (url : Url) (account : Option Str) (workerType : Str) :
    serializeUrl (workerRecord url account workerType) =
      serializeUpToPath url ++ '?' :: workerQuery account workerType :=
  serializeUrl_query url _

/-- On a source that parses, `buildWorkerUrl` returns the serialization of the
source record with the worker query and no fragment. -/
theorem buildWorkerUrl_of_parse (idna : Str → Option Str) (raw workerType : String)
    (o : UrlObject) (h : safeParseUrl idna raw = some o) :
    buildWorkerUrl idna raw workerType =
      { url := String.mk (serializeUrl
          (workerRecord o.url (searchParamsGet o "account".toList) workerType.toList)),
        error := "" } := by
  unfold buildWorkerUrl
  rw [h]
  cases hacc : searchParamsGet o "account".toList with
  | none =>
    simp only [hacc]
    simp [workerRecord, workerQuery, searchParamsSet, searchSetEmpty, hashSetEmpty, setPair,
      updateQuery, formSerialize, href, formEncode_requestType, formEncode_worker,
      formEncode_type]
  | some a =>
    simp only [hacc]
    by_cases ha : a = []
    · simp [ha, workerRecord, workerQuery, searchParamsSet, searchSetEmpty, hashSetEmpty, setPair,
        updateQuery, formSerialize, href, formEncode_requestType, formEncode_worker,
        formEncode_type]
    · simp [ha, workerRecord, workerQuery, searchParamsSet, searchSetEmpty, hashSetEmpty, setPair,
        updateQuery, formSerialize, href, formEncode_requestType, formEncode_worker,
        formEncode_type, formEncode_account]

/-! ## Trimming -/

theorem dropTrailing_decomp (p : Char → Bool) (s : Str) :
    ∃ post, s = dropTrailing p s ++ post ∧ (∀ c ∈ post, p c = true) ∧
      (∀ c, (dropTrailing p s).getLast? = some c → p c = false) := by
  refine ⟨(s.reverse.takeWhile p).reverse, ?_, ?_, ?_⟩
  · have := List.takeWhile_append_dropWhile p s.reverse
    have h2 := congrArg List.reverse this
    simp only [List.reverse_append, List.reverse_reverse] at h2
    exact h2.symm
  · intro c hc
    rw [List.mem_reverse] at hc
    exact List.mem_takeWhile_imp hc
  · intro c hc
    unfold dropTrailing at hc
    rw [List.getLast?_reverse] at hc
    cases hd : s.reverse.dropWhile p with
    | nil => rw [hd] at hc; simp at hc
    | cons x xs =>
      rw [hd] at hc
      simp only [List.head?_cons, Option.some.injEq] at hc
      subst hc
      have := List.head_dropWhile_not p s.reverse (by rw [hd]; simp)
      simp only [hd, List.head_cons] at this
      simpa using this

theorem trimStr_decomp (s : Str) :
    ∃ pre post, s = pre ++ trimStr s ++ post ∧
      (∀ c ∈ pre, isJsWhitespace c = true) ∧ (∀ c ∈ post, isJsWhitespace c = true) ∧
      (∀ c, (trimStr s).head? = some c → isJsWhitespace c = false) ∧
      (∀ c, (trimStr s).getLast? = some c → isJsWhitespace c = false) := by
  obtain ⟨post, h1, h2, h3⟩ := dropTrailing_decomp isJsWhitespace (s.dropWhile isJsWhitespace)
  refine ⟨s.takeWhile isJsWhitespace, post, ?_, ?_, h2, ?_, h3⟩
  · unfold trimStr
    rw [List.append_assoc, ← h1, List.takeWhile_append_dropWhile]
  · intro c hc
    exact List.mem_takeWhile_imp hc
  · intro c hc
    unfold trimStr at hc
    cases hd : s.dropWhile isJsWhitespace with
    | nil => rw [hd] at hc; simp [dropTrailing] at hc
    | cons x xs =>
      have hx : isJsWhitespace x = false := by
        have := List.head_dropWhile_not isJsWhitespace s (by rw [hd]; simp)
        simp only [hd, List.head_cons] at this
        simpa using this
      rw [hd] at hc h1
      cases ht : dropTrailing isJsWhitespace (x :: xs) with
      | nil =>
        rw [ht] at h1
        simp only [List.nil_append] at h1
        have := h2 x (by rw [← h1]; simp)
        rw [hx] at this
        exact absurd this (by decide)
      | cons y ys =>
        rw [ht] at hc h1
        simp only [List.head?_cons, Option.some.injEq] at hc
        simp only [List.cons_append, List.cons.injEq] at h1
        rw [← hc, ← h1.1]
        exact hx

theorem trimStr_all_whitespace (s : Str) (h : ∀ c ∈ s, isJsWhitespace c = true) :
    trimStr s = [] := by
  have : s.dropWhile isJsWhitespace = [] := by
    rw [List.dropWhile_eq_nil_iff]
    exact h
  simp [trimStr, this, dropTrailing]

theorem eq_of_toNat_eq {c d : Char} (h : c.toNat = d.toNat) : c = d := by
  rw [← Char.ofNat_toNat c, ← Char.ofNat_toNat d, h]

theorem eq_iff_toNat (c d : Char) : c = d ↔ c.toNat = d.toNat :=
  ⟨fun e => by rw [e], eq_of_toNat_eq⟩

/-! ## UTF-8: decoding inverts encoding -/

theorem utf8Encode_append (s t : Str) : utf8Encode (s ++ t) = utf8Encode s ++ utf8Encode t := by
  induction s with
  | nil => rfl
  | cons c s ih => simp [utf8Encode, ih]

theorem isSegmentChar_toNat (sp : Bool) (c : Char) (h : isSegmentChar sp c = true) :
    0x21 ≤ c.toNat ∧ c.toNat ≤ 0x7E ∧ c.toNat ≠ 0x22 ∧ c.toNat ≠ 0x23 ∧ c.toNat ≠ 0x2F ∧
    c.toNat ≠ 0x3C ∧ c.toNat ≠ 0x3E ∧ c.toNat ≠ 0x3F ∧ c.toNat ≠ 0x5E ∧ c.toNat ≠ 0x60 ∧
    c.toNat ≠ 0x7B ∧ c.toNat ≠ 0x7D ∧ (sp = true → c.toNat ≠ 0x5C) := by
  simp only [isSegmentChar, inPathSet, inQuerySet, inC0ControlSet, Bool.and_eq_true,
    Bool.not_eq_true', Bool.or_eq_false_iff, decide_eq_false_iff_not, beq_eq_false_iff_ne, ne_eq,
    bne_iff_ne, eq_iff_toNat, show ('/' : Char).toNat = 0x2F from rfl,
    show backslash.toNat = 0x5C from rfl, Bool.and_eq_false_iff] at h
  refine ⟨by omega, by omega, by omega, by omega, by omega, by omega, by omega, by omega,
    by omega, by omega, by omega, by omega, ?_⟩
  intro hsp
  rcases h.2 with h2 | h2
  · rw [hsp] at h2; exact absurd h2 (by decide)
  · exact h2

theorem endsAuthority_not_digit (sp : Bool) (t : Str) (h : endsAuthority sp t = true) :
    t.takeWhile isAsciiDigit = [] ∧ t.dropWhile isAsciiDigit = t := by
  cases t with
  | nil => simp
  | cons c rest =>
    have hc : isAsciiDigit c = false := by
      simp only [endsAuthority, Bool.or_eq_true, decide_eq_true_eq, Bool.and_eq_true] at h
      have e : c.toNat = 0x2F ∨ c.toNat = 0x3F ∨ c.toNat = 0x23 ∨ c.toNat = 0x5C := by
        rcases h with ((h | h) | h) | h
        · rw [h]; decide
        · rw [h]; decide
        · rw [h]; decide
        · rw [h.2]; decide
      simp only [isAsciiDigit, Bool.and_eq_false_iff, decide_eq_false_iff_not]
      omega
    simp [List.takeWhile_cons, List.dropWhile_cons, hc]

theorem portState_none (url : Url) (t : Str)
    (ht : endsAuthority (isSpecialScheme url.scheme) t = true) :
    portState url t = some (pathStartState url t) := by
  obtain ⟨t1, t2⟩ := endsAuthority_not_digit _ t ht
  unfold portState
  simp [t1, t2, ht]

theorem segment_head (sp : Bool) (seg : Str) (rest : Str) (h : segmentOk sp seg = true)
    (hr : rest.head? ≠ some '/') : (seg ++ rest).head? ≠ some '/' := by
  cases seg with
  | nil => simpa using hr
  | cons c s =>
    simp only [segmentOk, Bool.and_eq_true, List.all_eq_true] at h
    have := isSegmentChar_toNat sp c (h.1.1 c (List.mem_cons_self _ _))
    simp only [List.cons_append, List.head?_cons, ne_eq, Option.some.injEq, eq_iff_toNat,
      Char.reduceToNat]
    omega

/-- C1, as amended.  When the source parses and the first `account` parameter
of its query has the non-empty value `X`, `buildWorkerUrl` returns no error
and the source URL up to its path followed by
`?account=` enc(X) `&requestType=worker&type=` enc(W), where enc is the
form-urlencoded serialization; enc leaves a string of ASCII letters, digits,
`*`, `-`, `.`, `_` as it is, so for such `X` and `W` the query is literally
`account=X&requestType=worker&type=W`. -/
theorem buildWorkerUrl_account (idna : Str → Option Str) (raw workerType : String)
    (o : UrlObject) (X : Str) (h : safeParseUrl idna raw = some o)
    (hX : searchParamsGet o "account".toList = some X) (hne : X ≠ []) :
    buildWorkerUrl idna raw workerType =
      { url := String.mk (serializeUpToPath o.url ++ "?account=".toList ++ formEncode X ++
          "&requestType=worker&type=".toList ++ formEncode workerType.toList),
        error := "" } ∧
    ((∀ c ∈ X, isUnreserved c = true) → formEncode X = X) ∧
    ((∀ c ∈ workerType.toList, isUnreserved c = true) →
      formEncode workerType.toList = workerType.toList) := by
  refine ⟨?_, formEncode_unreserved X, formEncode_unreserved _⟩
  rw [buildWorkerUrl_of_parse idna raw workerType o h, hX, serializeUrl_workerRecord]
  simp [workerQuery, hne]

/-- C1, witness: the example of the specification. -/
theorem buildWorkerUrl_account_witness :
    buildWorkerUrl asciiToASCII exampleSource "email" =
      { url := "https://api.eu-west-1.rentmanapp.com/4.806/api.php?account=staging133393&requestType=worker&type=email",
        error := "" } := by
  rw [(buildWorkerUrl_account asciiToASCII exampleSource "email" exampleObject
    "staging133393".toList (by decide) (by decide) (by decide)).1]
  decide

/-- C1, counterexample.  An empty account value is not written back, and a
worker type with a space is written as `a+b`: in neither case is the query
`account=X&requestType=worker&type=W`. -/
theorem buildWorkerUrl_account_counterexample :
    buildWorkerUrl asciiToASCII "https://a.com/api.php?account=&subject=Uren" "email" =
      { url := "https://a.com/api.php?requestType=worker&type=email", error := "" } ∧
    buildWorkerUrl asciiToASCII "https://a.com/api.php?account=x&subject=Uren" "a b" =
      { url := "https://a.com/api.php?account=x&requestType=worker&type=a+b", error := "" } := by
  decide

/-- C2.  When the trimmed text is empty or the URL parser fails on it,
`buildWorkerUrl` returns the empty URL and the invalid-URL message; being a
total function, it returns a value on every input. -/
theorem buildWorkerUrl_invalid (idna : Str → Option Str) (raw workerType : String)
    (h : jsTrim raw = "" ∨ basicUrlParse idna (jsTrim raw).toList = none) :
    buildWorkerUrl idna raw workerType =
      { url := "", error := "Invalid URL. Please paste a valid api.php link." } := by
  have hp : safeParseUrl idna raw = none := by
    unfold safeParseUrl
    rcases h with h | h
    · simp [h]
    · have h2 : basicUrlParse idna (jsTrim raw).data = none := h
      simp [newURL, h2]
  simp [buildWorkerUrl, hp, invalidUrlMessage]

/-- C2, witness: `not a url`. -/
theorem buildWorkerUrl_invalid_witness :
    buildWorkerUrl asciiToASCII "not a url" "email" =
      { url := "", error := "Invalid URL. Please paste a valid api.php link." } :=
  buildWorkerUrl_invalid asciiToASCII "not a url" "email" (Or.inr (by decide))

/-- C4, as amended.  When the source parses and its query has no `account`
parameter, `buildWorkerUrl` returns no error and the source URL up to its
path followed by `?requestType=worker&type=` enc(W), enc being the
form-urlencoded serialization, which leaves a string of ASCII letters,
digits, `*`, `-`, `.`, `_` as it is. -/
theorem buildWorkerUrl_no_account (idna : Str → Option Str) (raw workerType : String)
    (o : UrlObject) (h : safeParseUrl idna raw = some o)
    (hacc : searchParamsGet o "account".toList = none) :
    buildWorkerUrl idna raw workerType =
      { url := String.mk (serializeUpToPath o.url ++ "?requestType=worker&type=".toList ++
          formEncode workerType.toList),
        error := "" } ∧
    ((∀ c ∈ workerType.toList, isUnreserved c = true) →
      formEncode workerType.toList = workerType.toList) := by
  refine ⟨?_, formEncode_unreserved _⟩
  rw [buildWorkerUrl_of_parse idna raw workerType o h, hacc, serializeUrl_workerRecord]
  simp [workerQuery]

/-- C4, witness. -/
theorem buildWorkerUrl_no_account_witness :
    buildWorkerUrl asciiToASCII "https://a.com/api.php?subject=Uren#top" "email" =
      { url := "https://a.com/api.php?requestType=worker&type=email", error := "" } := by
  rw [(buildWorkerUrl_no_account asciiToASCII "https://a.com/api.php?subject=Uren#top" "email"
    { url := { scheme := "https".toList, host := some (.domain "a.com".toList),
               path := .segments ["api.php".toList], query := some "subject=Uren".toList,
               fragment := some "top".toList },
      list := [("subject".toList, "Uren".toList)] } (by decide) (by decide)).1]
  decide

/-- C4, counterexample: the worker type `a b` is written as `a+b`, so the
query is not `requestType=worker&type=a b`. -/
theorem buildWorkerUrl_no_account_counterexample :
    buildWorkerUrl asciiToASCII "https://a.com/api.php?subject=Uren" "a b" =
      { url := "https://a.com/api.php?requestType=worker&type=a+b", error := "" } := by
  decide

/-- C6, as amended.  On a source that parses, `buildWorkerUrl` with the empty
worker identifier returns no error and a URL that is not empty: exactly the
source URL up to its path, then `?`, then `account=` enc(A) `&` when the first
account value `A` of the source is not empty (enc being the form-urlencoded
serialization), then `requestType=worker&type=`.  The empty output for an
empty worker is the work of the derivation effect, which sets the output URL
to the empty string without calling `buildWorkerUrl`. -/
theorem buildWorkerUrl_empty_worker (idna : Str → Option Str) (raw : String) (o : UrlObject)
    (h : safeParseUrl idna raw = some o) :
    buildWorkerUrl idna raw "" =
      { url := String.mk (serializeUpToPath o.url ++ '?' ::
          ((match searchParamsGet o "account".toList with
            | some a => if a.isEmpty then [] else "account=".toList ++ formEncode a ++ ['&']
            | none => []) ++ "requestType=worker&type=".toList)),
        error := "" } ∧
    (buildWorkerUrl idna raw "").url ≠ "" ∧
    ∀ s : ViewState, (deriveStep idna raw "" s).outputUrl = "" := by
  have hq : ∀ acc : Option Str, workerQuery acc "".toList =
      (match acc with
        | some a => if a.isEmpty then [] else "account=".toList ++ formEncode a ++ ['&']
        | none => []) ++ "requestType=worker&type=".toList := by
    intro acc
    unfold workerQuery
    rw [show formEncode "".toList = [] from rfl, List.append_nil]
    all_goals (cases acc <;> rfl)
  rw [buildWorkerUrl_of_parse idna raw "" o h, serializeUrl_workerRecord, hq]
  refine ⟨rfl, ?_, ?_⟩
  · intro hc
    have := congrArg String.data hc
    simp at this
  · intro s
    unfold deriveStep
    split <;> simp

/-- C6, witness: the example of the specification. -/
theorem buildWorkerUrl_empty_worker_witness :
    buildWorkerUrl asciiToASCII exampleSource "" =
      { url := "https://api.eu-west-1.rentmanapp.com/4.806/api.php?account=staging133393&requestType=worker&type=",
        error := "" } ∧
    (buildWorkerUrl asciiToASCII exampleSource "").url ≠ "" ∧
    ∀ s : ViewState, (deriveStep asciiToASCII exampleSource "" s).outputUrl = "" := by
  have hw := buildWorkerUrl_empty_worker asciiToASCII exampleSource exampleObject (by decide)
  refine ⟨?_, hw.2.1, hw.2.2⟩
  rw [hw.1]
  decide

/-- C6, counterexample: with the empty worker identifier the URL returned is
not empty. -/
theorem buildWorkerUrl_empty_worker_counterexample :
    buildWorkerUrl asciiToASCII "https://a.com/api.php?account=x" "" =
      { url := "https://a.com/api.php?account=x&requestType=worker&type=", error := "" } := by
  decide

/-- C7, the code at the failing input.  The state holds the invalid-URL error
of an earlier step; the source is now valid and the effective worker is
empty: the step leaves the error in place. -/
theorem deriveStep_keeps_error :
    deriveStep asciiToASCII "https://a.com/api.php?account=x" ""
        { outputUrl := "", error := "Invalid URL. Please paste a valid api.php link." } =
      { outputUrl := "", error := "Invalid URL. Please paste a valid api.php link." } := by
  decide

/-- C8.  With a source that is not blank and a worker that is not empty, the
state after the derivation effect is the value of `buildWorkerUrl` on the
two inputs, whatever the state before. -/
theorem deriveStep_ready (idna : Str → Option Str) (apiUrl worker : String) (s : ViewState)
    (h1 : jsTrim apiUrl ≠ "") (h2 : worker ≠ "") :
    deriveStep idna apiUrl worker s =
      { outputUrl := (buildWorkerUrl idna apiUrl worker).url,
        error := (buildWorkerUrl idna apiUrl worker).error } ∧
    ∀ s2 : ViewState, deriveStep idna apiUrl worker s2 = deriveStep idna apiUrl worker s := by
  simp [deriveStep, h1, h2]

/-- C8, witness. -/
theorem deriveStep_ready_witness :
    deriveStep asciiToASCII exampleSource "email"
        { outputUrl := "stale", error := "Invalid URL. Please paste a valid api.php link." } =
      { outputUrl := (buildWorkerUrl asciiToASCII exampleSource "email").url,
        error := (buildWorkerUrl asciiToASCII exampleSource "email").error } :=
  (deriveStep_ready asciiToASCII exampleSource "email"
    { outputUrl := "stale", error := "Invalid URL. Please paste a valid api.php link." }
    (by decide) (by decide)).1

/-- C9.  The effective worker is the selected key when the selection is not
`custom`; when it is `custom` it is the custom text without its leading and
trailing white space: the text is white space, the effective worker, white
space, and the effective worker neither begins nor ends with white space.  A
custom text of white space only gives the empty effective worker. -/
theorem effectiveWorker_spec (selected custom : String) :
    (selected ≠ "custom" → effectiveWorker selected custom = selected) ∧
    (selected = "custom" →
      ∃ pre post : Str,
        custom.toList = pre ++ (effectiveWorker selected custom).toList ++ post ∧
        (∀ c ∈ pre, isJsWhitespace c = true) ∧ (∀ c ∈ post, isJsWhitespace c = true) ∧
        (∀ c, (effectiveWorker selected custom).toList.head? = some c →
          isJsWhitespace c = false) ∧
        (∀ c, (effectiveWorker selected custom).toList.getLast? = some c →
          isJsWhitespace c = false)) ∧
    (selected = "custom" → (∀ c ∈ custom.toList, isJsWhitespace c = true) →
      effectiveWorker selected custom = "") := by
  refine ⟨?_, ?_, ?_⟩
  · intro h
    simp [effectiveWorker, h]
  · intro h
    simp only [effectiveWorker, h, if_true, jsTrim]
    exact trimStr_decomp custom.toList
  · intro h hw
    simp only [effectiveWorker, h, if_true, jsTrim]
    rw [trimStr_all_whitespace _ hw]

/-- C9, at concrete inputs. -/
theorem effectiveWorker_spec_witness :
    effectiveWorker "email" "  ignored " = "email" ∧
    effectiveWorker "custom" " \t my-worker \n" = "my-worker" ∧
    effectiveWorker "custom" " \t  " = "" :=
  ⟨(effectiveWorker_spec "email" "  ignored ").1 (by decide), by decide,
   (effectiveWorker_spec "custom" " \t  ").2.2 rfl (by decide)⟩

end UrlConstructor
